import Mathlib

/-!
Shallow embedding of the BitForge build-orchestration core (Rust) in Lean 4,
with theorems checking the natural-language specification against the code.

Conventions for the embedding:
* Rust `String`/`&str` is Lean `String`; character-level work happens on
  `String.data : List Char`.
* IO effects (spawning processes, probing tools, filesystem tests) are made
  explicit: each modelled function takes a "world" record mapping a command or
  path to the outcome the operating system would produce, and the function
  returns its `Result` together with the list of shell commands it executed.
* `anyhow` error chains are modelled as strings; `e.context(c)` becomes the
  string `c ++ ": " ++ e`.
* Machine integers: exit codes are `Int`; `u32` parsing checks `< 2 ^ 32`.
-/

namespace BitForge

/-- The single-quote character, written via its code point. -/
def SQ : Char := Char.ofNat 39

-- ─── Character classes ──────────────────────────────────────────────────────

/-- The 25 Unicode `White_Space` code points, the class used by Rust
`char::is_whitespace` and hence by `str::trim` in `process.rs::probe`. -/
def rustIsWhitespace (c : Char) : Bool :=
  let n := c.toNat
  decide ((0x9 ≤ n ∧ n ≤ 0xD) ∨ n = 0x20 ∨ n = 0x85 ∨ n = 0xA0 ∨ n = 0x1680 ∨
    (0x2000 ≤ n ∧ n ≤ 0x200A) ∨ n = 0x2028 ∨ n = 0x2029 ∨ n = 0x202F ∨
    n = 0x205F ∨ n = 0x3000)

/-- Rust `char::is_alphanumeric` (Unicode alphabetic or numeric), as used by
`compiler.rs::validate_version_tag`.  The full Unicode tables are enormous;
this model is exact on ASCII and on the Latin-1 Supplement and Latin
Extended-A blocks (code points `< 0x180`): there the alphanumeric characters
are the ASCII letters and digits, `ª µ º`, the superscripts `² ³ ¹`, the
fractions `¼ ½ ¾`, and the letters `0xC0–0x17F` minus `× (0xD7)` and
`÷ (0xF7)`.  Every character examined by a theorem below lies in this range. -/
def rustIsAlphanumeric (c : Char) : Bool :=
  if c.isAlpha ∨ c.isDigit then true
  else
    let n := c.toNat
    if n = 0xAA ∨ n = 0xB5 ∨ n = 0xBA ∨ n = 0xB2 ∨ n = 0xB3 ∨ n = 0xB9 ∨
        (0xBC ≤ n ∧ n ≤ 0xBE) ∨
        (0xC0 ≤ n ∧ n ≤ 0x17F ∧ n ≠ 0xD7 ∧ n ≠ 0xF7) then true
    else false

-- ─── compiler.rs: version-tag validation, quoting, version parsing ──────────

/-- Rust `Debug` formatting of a string (`format!("{:?}", s)`), restricted to
the escapes relevant here: quote, backslash, newline, carriage return, tab.
Used by `deps.rs` for `format!("{brew:?} install {pkg}")`. -/
def rustDebugEscape : List Char → List Char
  | [] => []
  | c :: cs =>
    (if c = '"' then ['\\', '"']
     else if c = '\\' then ['\\', '\\']
     else if c = '\n' then ['\\', 'n']
     else if c = '\r' then ['\\', 'r']
     else if c = '\t' then ['\\', 't']
     else [c]) ++ rustDebugEscape cs

/-- Model of `format!("{s:?}")`: wrap in double quotes, escaping specials. -/
def debugQuote (s : String) : String :=
  ⟨'"' :: (rustDebugEscape s.data ++ ['"'])⟩

/-- compiler.rs `validate_version_tag`: accept iff every character is
alphanumeric (Rust semantics) or one of `.`, `-`, `_`. -/
def validate_version_tag (tag : String) : Except String Unit :=
  if tag.data.all (fun c => rustIsAlphanumeric c || c == '.' || c == '-' || c == '_') then
    Except.ok ()
  else
    Except.error ("Version tag contains unexpected characters: " ++ debugQuote tag)

/-- The character class the SPEC claims for version-tag validation:
`[A-Za-z0-9._-]` (ASCII-only).  Written from the spec sentence, for
comparison with the code's `validate_version_tag`. -/
def specTagAllowed (c : Char) : Bool :=
  c.isAlpha || c.isDigit || c == '.' || c == '_' || c == '-'

/-- Validation as the spec words it: every character in `[A-Za-z0-9._-]`. -/
def validate_spec (tag : String) : Bool :=
  tag.data.all specTagAllowed

/-- compiler.rs `shell_quote` body: `s.replace('\'', "'\\''")` — every
single quote becomes quote, backslash, quote, quote. -/
def escapeQuotes : List Char → List Char
  | [] => []
  | c :: cs =>
    if c = SQ then SQ :: '\\' :: SQ :: SQ :: escapeQuotes cs
    else c :: escapeQuotes cs

/-- compiler.rs `shell_quote`: wrap in single quotes, escaping embedded
single quotes by closing, escaping, reopening the quote. -/
def shell_quote (s : String) : String :=
  ⟨SQ :: (escapeQuotes s.data ++ [SQ])⟩

/-- POSIX shell word unquoting, written from the spec side of the round-trip
claim: single quotes toggle a literal region; outside quotes a backslash
escapes the following character; an unterminated quote is an error.  (Inside
single quotes every character, backslash included, is literal.) -/
def shellUnquoteAux : Bool → List Char → Option (List Char)
  | true, [] => none
  | false, [] => some []
  | true, c :: cs =>
    if c = SQ then shellUnquoteAux false cs
    else (shellUnquoteAux true cs).map (c :: ·)
  | false, c :: cs =>
    if c = SQ then shellUnquoteAux true cs
    else if c = '\\' then
      match cs with
      | [] => none
      | d :: ds => (shellUnquoteAux false ds).map (d :: ·)
    else (shellUnquoteAux false cs).map (c :: ·)

/-- POSIX shell word unquoting of a whole word (see `shellUnquoteAux`). -/
def shell_unquote (s : String) : Option String :=
  (shellUnquoteAux false s.data).map (fun l => ⟨l⟩)

/-- Rust `"…".parse::<u32>()` on a run of ASCII digits: the numeral's value
when it fits in 32 bits, failure on the empty string or on overflow. -/
def parseU32 (ds : List Char) : Option Nat :=
  if ds.isEmpty then none
  else
    let v := ds.foldl (fun a c => 10 * a + (c.toNat - '0'.toNat)) 0
    if v < 2 ^ 32 then some v else none

/-- compiler.rs `parse_version`: strip leading `v`s (`trim_start_matches`),
match the anchored regex `^(\d+)\.(\d+)`, parse both captures as `u32`,
and fall back to `(0, 0)` when anything fails.  `\d` is modelled as an ASCII
digit; both captures are maximal digit runs (the regex is greedy and `.`
is not a digit, so no backtracking can shorten them). -/
def parse_version (tag : String) : Nat × Nat :=
  let t := tag.data.dropWhile (fun c => c == 'v')
  let ds1 := t.takeWhile Char.isDigit
  let rest := t.dropWhile Char.isDigit
  if ds1.isEmpty then (0, 0)
  else
    match rest with
    | '.' :: r2 =>
      let ds2 := r2.takeWhile Char.isDigit
      if ds2.isEmpty then (0, 0)
      else
        match parseU32 ds1, parseU32 ds2 with
        | some a, some b => (a, b)
        | _, _ => (0, 0)
    | _ => (0, 0)

/-- compiler.rs `use_cmake`: CMake iff the parsed major version is ≥ 25. -/
def use_cmake (version : String) : Bool :=
  decide (25 ≤ (parse_version version).1)

-- ─── process.rs: run_command and probe ──────────────────────────────────────

/-- Exit state of a child process: `ExitStatus::code()` is `Some c` for a
normal exit and `None` (here `signal`) for signal termination. -/
inductive ExitStatus where
  | code (c : Int)
  | signal
deriving DecidableEq, Repr

/-- Rust `ExitStatus::success()`: exited with status code 0. -/
def statusSuccess : ExitStatus → Bool
  | .code c => c == 0
  | .signal => false

/-- process.rs: `status.code().map(|c| c.to_string()).unwrap_or("signal")`. -/
def exitCodeStr : ExitStatus → String
  | .code c => toString c
  | .signal => "signal"

/-- What the operating system does with one spawn attempt: refuse to spawn,
fail the exit-status wait, or run the child to an exit state. -/
inductive SpawnOutcome where
  | spawnFail
  | waitFail
  | ran (st : ExitStatus)
deriving DecidableEq, Repr

/-- process.rs `run_command`: `Ok(())` on exit code 0; on spawn or wait
failure the `anyhow` context message; on a non-zero exit or signal the
message `Command failed (exit {code}): {cmd}`.  The working directory and
environment do not influence the modelled result. -/
def run_command (cmd : String) (cwd : Option String)
    (env : List (String × String)) (out : SpawnOutcome) : Except String Unit :=
  match out with
  | .spawnFail => Except.error ("Failed to spawn: " ++ cmd)
  | .waitFail => Except.error ("Failed to wait for: " ++ cmd)
  | .ran st =>
    if statusSuccess st then Except.ok ()
    else Except.error ("Command failed (exit " ++ exitCodeStr st ++ "): " ++ cmd)

/-- Rust `str::trim`: drop `White_Space` characters from both ends. -/
def rustTrim (s : String) : String :=
  ⟨((s.data.dropWhile rustIsWhitespace).reverse.dropWhile rustIsWhitespace).reverse⟩

/-- Outcome of one `Command::output()` call, for `probe`: `spawn = none`
models an OS-level failure to run the executable; otherwise the exit state,
with `stdoutUtf8` the `String::from_utf8` decoding of captured stdout
(`none` for invalid UTF-8). -/
structure ProbeOutcome where
  spawn : Option ExitStatus
  stdoutUtf8 : Option String
deriving DecidableEq, Repr

/-- process.rs `probe`: `None` on an empty command list, spawn failure,
non-zero exit, invalid UTF-8, or whitespace-only stdout; otherwise the
trimmed stdout. -/
def probe (cmd : List String) (o : ProbeOutcome) : Option String :=
  match cmd with
  | [] => none
  | _ :: _ =>
    match o.spawn with
    | none => none
    | some st =>
      if statusSuccess st then
        match o.stdoutUtf8 with
        | none => none
        | some s =>
          let t := rustTrim s
          if t.isEmpty then none else some t
      else none

-- ─── compiler.rs: build pipeline ────────────────────────────────────────────

/-- compiler.rs: `version.trim_start_matches('v')` — strip every leading `v`. -/
def versionClean (version : String) : String :=
  ⟨version.data.dropWhile (fun c => c == 'v')⟩

def BITCOIN_REPO : String := "https://github.com/bitcoin/bitcoin.git"
def ELECTRS_REPO : String := "https://github.com/romanz/electrs.git"

/-- The observable environment of one pipeline run: per-command spawn
outcomes, per-path filesystem answers, and probe results for the two
toolchain checks in `compile_electrs`. -/
structure World where
  run : String → SpawnOutcome
  pathExists : String → Bool
  createDir : String → Bool
  copyOk : String → String → Bool
  cargoProbe : ProbeOutcome
  rustcProbe : ProbeOutcome
  env : List (String × String)

/-- Model of `anyhow` `.context(c)` on an error result. -/
def withCtx (ctx : String) : Except String α → Except String α
  | .ok a => Except.ok a
  | .error e => Except.error (ctx ++ ": " ++ e)

/-- Model of `Path::file_name` for the ordinary paths this pipeline builds:
the last nonempty `/`-separated component, none for a root/`.`/`..` path. -/
def fileName (p : String) : Option String :=
  match ((p.data.splitOn '/').filter (fun seg => !seg.isEmpty)).getLast? with
  | none => none
  | some seg => if seg = ['.'] ∨ seg = ['.', '.'] then none else some ⟨seg⟩

/-- The `for binary in binary_files` loop of compiler.rs `copy_binaries`:
skip a source that does not exist, skip a path with no file name, skip a
failed `fs::copy`; collect the destination paths actually copied. -/
def copyBinariesLoop (w : World) (destDir : String) : List String → List String
  | [] => []
  | b :: rest =>
    if w.pathExists b then
      match fileName b with
      | none => copyBinariesLoop w destDir rest
      | some name =>
        let dest := destDir ++ "/" ++ name
        if w.copyOk b dest then dest :: copyBinariesLoop w destDir rest
        else copyBinariesLoop w destDir rest
    else copyBinariesLoop w destDir rest

/-- compiler.rs `copy_binaries`: create the output directory (failure is the
only error), then best-effort copy each existing binary; zero copies is only
logged, never an error. -/
def copy_binaries (w : World) (destDir : String) (binaryFiles : List String) :
    Except String (List String) :=
  if w.createDir destDir then Except.ok (copyBinariesLoop w destDir binaryFiles)
  else Except.error "Failed to create output directory"

/-- compiler.rs `clone_or_update`, with the list of shell commands it ran:
fresh clone when the source directory is absent, else fetch + checkout; the
version tag is validated before any command is interpolated or run. -/
def clone_or_update (w : World) (srcDir buildDir version repoUrl : String) :
    Except String Unit × List String :=
  if w.pathExists srcDir then
    match validate_version_tag version with
    | .error e => (Except.error e, [])
    | .ok _ =>
      let cmd1 := "git fetch --depth 1 origin tag " ++ shell_quote version
      match run_command cmd1 (some srcDir) w.env (w.run cmd1) with
      | .error e => (Except.error ("git fetch failed: " ++ e), [cmd1])
      | .ok _ =>
        let cmd2 := "git checkout " ++ shell_quote version
        (withCtx "git checkout failed"
          (run_command cmd2 (some srcDir) w.env (w.run cmd2)), [cmd1, cmd2])
  else
    match validate_version_tag version with
    | .error e => (Except.error e, [])
    | .ok _ =>
      let cmd := "git clone --depth 1 --branch " ++ shell_quote version ++ " " ++
        shell_quote repoUrl ++ " " ++ shell_quote srcDir
      (withCtx "git clone failed"
        (run_command cmd (some buildDir) w.env (w.run cmd)), [cmd])

/-- compiler.rs `build_bitcoin_cmake`: configure, then parallel build; on
success the five expected binary paths under `build/bin`. -/
def build_bitcoin_cmake (w : World) (srcDir : String) (cores : Nat) :
    Except String (List String) × List String :=
  let cmd1 := "cmake -B build -DENABLE_WALLET=OFF -DENABLE_IPC=OFF"
  match run_command cmd1 (some srcDir) w.env (w.run cmd1) with
  | .error e => (Except.error ("cmake configure failed: " ++ e), [cmd1])
  | .ok _ =>
    let cmd2 := "cmake --build build -j" ++ toString cores
    match run_command cmd2 (some srcDir) w.env (w.run cmd2) with
    | .error e => (Except.error ("cmake build failed: " ++ e), [cmd1, cmd2])
    | .ok _ =>
      let bin := srcDir ++ "/build/bin"
      (Except.ok [bin ++ "/bitcoind", bin ++ "/bitcoin-cli", bin ++ "/bitcoin-tx",
        bin ++ "/bitcoin-wallet", bin ++ "/bitcoin-util"], [cmd1, cmd2])

/-- compiler.rs `build_bitcoin_autotools`: autogen, configure, make; on
success the four expected binary paths under `bin`. -/
def build_bitcoin_autotools (w : World) (srcDir : String) (cores : Nat) :
    Except String (List String) × List String :=
  let cmd1 := "./autogen.sh"
  match run_command cmd1 (some srcDir) w.env (w.run cmd1) with
  | .error e => (Except.error ("autogen.sh failed: " ++ e), [cmd1])
  | .ok _ =>
    let cmd2 := "./configure --disable-wallet --disable-gui"
    match run_command cmd2 (some srcDir) w.env (w.run cmd2) with
    | .error e => (Except.error ("./configure failed: " ++ e), [cmd1, cmd2])
    | .ok _ =>
      let cmd3 := "make -j" ++ toString cores
      match run_command cmd3 (some srcDir) w.env (w.run cmd3) with
      | .error e => (Except.error ("make failed: " ++ e), [cmd1, cmd2, cmd3])
      | .ok _ =>
        let bin := srcDir ++ "/bin"
        (Except.ok [bin ++ "/bitcoind", bin ++ "/bitcoin-cli", bin ++ "/bitcoin-tx",
          bin ++ "/bitcoin-wallet"], [cmd1, cmd2, cmd3])

/-- compiler.rs `compile_bitcoin`: create the build root, clone or update,
build with the strategy selected by `use_cmake`, copy whatever binaries
exist; an empty copy list is logged but the function still returns the
output directory.  Second component: the shell commands run, in order. -/
def compile_bitcoin (w : World) (version buildDir : String) (cores : Nat) :
    Except String String × List String :=
  let srcDir := buildDir ++ "/bitcoin-" ++ versionClean version
  if w.createDir buildDir then
    match clone_or_update w srcDir buildDir version BITCOIN_REPO with
    | (.error e, t) => (Except.error e, t)
    | (.ok _, t) =>
      match (if use_cmake version then build_bitcoin_cmake w srcDir cores
             else build_bitcoin_autotools w srcDir cores) with
      | (.error e, t2) => (Except.error e, t ++ t2)
      | (.ok binaries, t2) =>
        let outputDir := buildDir ++ "/binaries/bitcoin-" ++ versionClean version
        match copy_binaries w outputDir binaries with
        | .error e => (Except.error e, t ++ t2)
        | .ok _ => (Except.ok outputDir, t ++ t2)
  else (Except.error "Failed to create build directory", [])

/-- compiler.rs `compile_electrs`: fail fast when the cargo probe fails (the
rustc probe is logged but ignored), create the build root, clone or update,
run the cargo build, then require the single expected artifact
`target/release/electrs` — its absence is a hard error — and copy it.
Second component: the shell commands run, in order. -/
def compile_electrs (w : World) (version buildDir : String) (cores : Nat) :
    Except String String × List String :=
  match probe ["cargo", "--version"] w.cargoProbe with
  | none => (Except.error "Cargo not found — cannot compile Electrs", [])
  | some _ =>
    let srcDir := buildDir ++ "/electrs-" ++ versionClean version
    if w.createDir buildDir then
      match clone_or_update w srcDir buildDir version ELECTRS_REPO with
      | (.error e, t) => (Except.error e, t)
      | (.ok _, t) =>
        let cmd := "cargo build --release --jobs " ++ toString cores
        match run_command cmd (some srcDir) w.env (w.run cmd) with
        | .error e => (Except.error ("cargo build --release failed: " ++ e), t ++ [cmd])
        | .ok _ =>
          let binary := srcDir ++ "/target/release/electrs"
          if w.pathExists binary then
            let outputDir := buildDir ++ "/binaries/electrs-" ++ versionClean version
            match copy_binaries w outputDir [binary] with
            | .error e => (Except.error e, t ++ [cmd])
            | .ok _ => (Except.ok outputDir, t ++ [cmd])
          else
            (Except.error ("Electrs binary not found at expected location: " ++ binary),
              t ++ [cmd])
    else (Except.error "Failed to create build directory", [])

-- ─── app.rs: bounded log buffer ─────────────────────────────────────────────

/-- app.rs: maximum log lines retained in memory. -/
def MAX_LOG_LINES : Nat := 4000

/-- app.rs: drop to this many lines when the cap is hit. -/
def TRIM_TO_LINES : Nat := MAX_LOG_LINES / 2

/-- The observer state touched by `append_log`: the text buffer (as a
character list) and the tracked line count. -/
structure LogState where
  log_buffer : List Char
  log_line_count : Nat
deriving DecidableEq, Repr

/-- The `char_indices().find_map(...)` scan of app.rs `append_log`: walk the
buffer; at each newline, return its index once `remaining` has reached zero,
else decrement `remaining`. -/
def findSplitPos : List Char → Nat → Nat → Option Nat
  | [], _, _ => none
  | c :: cs, remaining, i =>
    if c = '\n' then
      if remaining = 0 then some i else findSplitPos cs (remaining - 1) (i + 1)
    else findSplitPos cs remaining (i + 1)

/-- app.rs `append_log`: push the message, add its newline count to the
tracked line count; when the count exceeds `MAX_LOG_LINES`, find the split
position via `findSplitPos` with `remaining = count - TRIM_TO_LINES`
(`saturating_sub`), keep the buffer after `split_pos + 1`, and set the
tracked count to `TRIM_TO_LINES`. -/
def append_log (st : LogState) (msg : List Char) : LogState :=
  let newLines := msg.countP (fun c => c == '\n')
  let buffer := st.log_buffer ++ msg
  let count := st.log_line_count + newLines
  if count > MAX_LOG_LINES then
    let dropCount := count - TRIM_TO_LINES
    match findSplitPos buffer dropCount 0 with
    | some splitPos => ⟨buffer.drop (splitPos + 1), TRIM_TO_LINES⟩
    | none => ⟨buffer, count⟩
  else ⟨buffer, count⟩

-- ─── deps.rs: dependency checking ───────────────────────────────────────────

/-- deps.rs `BREW_PACKAGES`: the fixed catalogue of required packages. -/
def BREW_PACKAGES : List String :=
  ["automake", "libtool", "pkg-config", "boost",
   "miniupnpc", "zeromq", "sqlite", "python", "cmake",
   "llvm", "libevent", "rocksdb", "rust", "git"]

/-- messages.rs `ConfirmRequest`, minus the reply slot (modelled as the
`Option Bool` argument of `ask_confirm`). -/
structure ConfirmRequest where
  title : String
  message : String
deriving DecidableEq, Repr

/-- deps.rs `ask_confirm`: send the request, then await the oneshot reply;
`reply = some b` models a delivered answer, `none` models the slot being
dropped, which `unwrap_or(false)` turns into a definite no. -/
def ask_confirm (title message : String) (reply : Option Bool) :
    ConfirmRequest × Bool :=
  (⟨title, message⟩, reply.getD false)

/-- deps.rs: the command `format!("{brew:?} install {pkg}")`. -/
def brewInstallCmd (brew pkg : String) : String :=
  debugQuote brew ++ " install " ++ pkg

/-- The observable environment of one dependency-check run. -/
structure DepsWorld where
  brew : String
  env : List (String × String)
  pkgInstalled : String → Bool
  runResult : String → SpawnOutcome
  rustcProbe1 : ProbeOutcome
  cargoProbe1 : ProbeOutcome
  brewKnowsRust : Bool
  rustcProbe2 : ProbeOutcome
  cargoProbe2 : ProbeOutcome
  confirmReply : Option Bool

/-- A `ShowDialog` message: title, message, `is_error` flag. -/
abbrev Dialog := String × String × Bool

/-- The `for pkg in &missing` install loop of deps.rs: run every install
serially in order regardless of failures; a failed install contributes an
`Installation Failed` error dialog and nothing else. -/
def install_missing (w : DepsWorld) : List String → List String × List Dialog
  | [] => ([], [])
  | pkg :: rest =>
    let cmd := brewInstallCmd w.brew pkg
    let (cmds, dlgs) := install_missing w rest
    match run_command cmd none w.env (w.runResult cmd) with
    | .ok _ => (cmd :: cmds, dlgs)
    | .error e =>
      (cmd :: cmds,
        ("Installation Failed", "Failed to install " ++ pkg ++ ":\n" ++ e, true) :: dlgs)

/-- deps.rs guidance text shown when Homebrew does not know the rust
formula (the `2. Run:` line quotes `=https` in single quotes). -/
def rustManualMsg : String :=
  "Could not install Rust via Homebrew.\n\nPlease install manually:\n1. Visit https://rustup.rs\n2. Run: curl --proto " ++
    SQ.toString ++ "=https" ++ SQ.toString ++
    " --tlsv1.2 -sSf https://sh.rustup.rs | sh\n3. Restart this app"

/-- deps.rs `check_rust_installation`, returning (ready, commands run,
dialogs sent): ready immediately when both probes succeed; otherwise give up
when Homebrew lacks the formula; otherwise install rust and re-probe once,
reporting not-ready with restart guidance when the re-probe still fails. -/
def check_rust_installation (w : DepsWorld) : Bool × List String × List Dialog :=
  let rustcOk := (probe ["rustc", "--version"] w.rustcProbe1).isSome
  let cargoOk := (probe ["cargo", "--version"] w.cargoProbe1).isSome
  if rustcOk && cargoOk then (true, [], [])
  else if !w.brewKnowsRust then
    (false, [], [("Rust Installation Failed", rustManualMsg, true)])
  else
    let cmd := debugQuote w.brew ++ " install rust"
    match run_command cmd none w.env (w.runResult cmd) with
    | .error e =>
      (false, [cmd],
        [("Installation Error",
          "Failed to install Rust: " ++ e ++ "\n\nPlease install manually from https://rustup.rs",
          true)])
    | .ok _ =>
      match probe ["rustc", "--version"] w.rustcProbe2,
          probe ["cargo", "--version"] w.cargoProbe2 with
      | some _, some _ => (true, [cmd], [])
      | _, _ =>
        (false, [cmd],
          [("Rust Installation",
            "Rust was installed but may not be in PATH.\n\nPlease:\n1. Close and reopen this app\n2. OR manually add ~/.cargo/bin to your PATH",
            false)])

/-- Everything a `check_dependencies_task` run sends or returns. -/
structure DepsOut where
  confirms : List ConfirmRequest
  pkgInstalls : List String
  rustCmds : List String
  dialogs : List Dialog
  result : Except String Bool
deriving Repr

/-- The confirmation message composed by deps.rs for `missing` packages:
count, first five names, `, and N more` overflow, install question. -/
def missingMessage (missing : List String) : String :=
  let count := missing.length
  let preview := String.intercalate ", " (missing.take 5)
  let extra := if count > 5 then ", and " ++ toString (count - 5) ++ " more" else ""
  "Found " ++ toString count ++ " missing package" ++
    (if count = 1 then "" else "s") ++ ":\n\n" ++ preview ++ extra ++
    "\n\nInstall all missing packages now?"

/-- deps.rs `check_dependencies_task`: probe every catalogue package; when
some are missing, ask for confirmation and — on acceptance — best-effort
install each one; then check the Rust toolchain and return `Ok(rust_ok)`
(the function itself never returns `Err`).  `pkgInstalls` are the package
install commands, `rustCmds` those of the toolchain fallback path. -/
def check_dependencies_task (w : DepsWorld) : DepsOut :=
  let missing := BREW_PACKAGES.filter (fun p => !w.pkgInstalled p)
  let (confirms, pkgInstalls, dlgs1) :=
    if missing.isEmpty then ([], [], [])
    else
      let (req, shouldInstall) :=
        ask_confirm "Install Missing Dependencies" (missingMessage missing) w.confirmReply
      if shouldInstall then
        let (cmds, dlgs) := install_missing w missing
        ([req], cmds, dlgs)
      else ([req], [], [])
  let (rustOk, rustCmds, dlgs2) := check_rust_installation w
  let finalDlg : Dialog :=
    if rustOk then
      ("Dependency Check",
        "✅ All dependencies are installed and ready!\n\nYou can now proceed with compilation.",
        false)
    else
      ("Dependency Check",
        "⚠️  Some dependencies need attention.\n\nCheck the log for details.\nYou may need to restart the app after installing Rust.",
        false)
  ⟨confirms, pkgInstalls, rustCmds, dlgs1 ++ dlgs2 ++ [finalDlg], Except.ok rustOk⟩

-- ─── Helper lemmas ──────────────────────────────────────────────────────────

lemma data_append (s t : String) : (s ++ t).data = s.data ++ t.data := rfl

lemma all_congr_mem {α : Type} {p q : α → Bool} :
    ∀ l : List α, (∀ a ∈ l, p a = q a) → l.all p = l.all q := by
  intro l h
  induction l with
  | nil => rfl
  | cons a t ih =>
    simp only [List.all_cons]
    rw [h a (by simp), ih (fun b hb => h b (by simp [hb]))]

lemma rustIsAlphanumeric_ascii (c : Char) (h : c.toNat < 128) :
    rustIsAlphanumeric c = (c.isAlpha || c.isDigit) := by
  unfold rustIsAlphanumeric
  split
  · rename_i h1
    rcases h1 with h1 | h1 <;> simp [h1]
  · rename_i h1
    dsimp only
    rw [if_neg (by omega)]
    push_neg at h1
    simp [h1.1, h1.2]

lemma codePred_eq_specTagAllowed (c : Char) (h : c.toNat < 128) :
    (rustIsAlphanumeric c || c == '.' || c == '-' || c == '_') = specTagAllowed c := by
  rw [rustIsAlphanumeric_ascii c h]
  unfold specTagAllowed
  cases hA : c.isAlpha <;> cases hD : c.isDigit <;> cases hP : (c == '.') <;>
    cases hU : (c == '_') <;> cases hM : (c == '-') <;> simp [hA, hD, hP, hU, hM]

lemma auxTrueSQ (l : List Char) :
    shellUnquoteAux true (SQ :: l) = shellUnquoteAux false l := by
  rw [shellUnquoteAux.eq_def]
  simp

lemma auxFalseSQ (l : List Char) :
    shellUnquoteAux false (SQ :: l) = shellUnquoteAux true l := by
  rw [shellUnquoteAux.eq_def]
  simp

lemma auxFalseBS (d : Char) (ds : List Char) :
    shellUnquoteAux false ('\\' :: d :: ds) = (shellUnquoteAux false ds).map (d :: ·) := by
  have hbs : ('\\' : Char) ≠ SQ := by decide
  rw [shellUnquoteAux.eq_def]
  simp [hbs]

lemma auxTrueOther (c : Char) (hc : c ≠ SQ) (l : List Char) :
    shellUnquoteAux true (c :: l) = (shellUnquoteAux true l).map (c :: ·) := by
  rw [shellUnquoteAux.eq_def]
  simp [hc]

lemma shellUnquoteAux_escape (l : List Char) :
    shellUnquoteAux true (escapeQuotes l ++ [SQ]) = some l := by
  induction l with
  | nil =>
    show shellUnquoteAux true (SQ :: []) = some []
    rw [auxTrueSQ]
    rfl
  | cons c cs ih =>
    by_cases hc : c = SQ
    · subst hc
      show shellUnquoteAux true
        (SQ :: '\\' :: SQ :: SQ :: (escapeQuotes cs ++ [SQ])) = some (SQ :: cs)
      rw [auxTrueSQ, auxFalseBS, auxFalseSQ, ih]
      rfl
    · have he : escapeQuotes (c :: cs) = c :: escapeQuotes cs := by
        rw [escapeQuotes, if_neg hc]
      rw [show escapeQuotes (c :: cs) ++ [SQ] = c :: (escapeQuotes cs ++ [SQ]) by
        rw [he]; rfl]
      rw [auxTrueOther c hc, ih]
      rfl

/-- The first list is a contiguous substring of the second, stated by
explicit decomposition (used for "the message contains ..." claims). -/
def strContains (needle hay : String) : Prop :=
  ∃ l r, hay.data = l ++ needle.data ++ r

lemma dropWhile_head_not (p : α → Bool) :
    ∀ (l : List α) (c : α), (l.dropWhile p).head? = some c → p c = false := by
  intro l
  induction l with
  | nil => intro c h; simp [List.dropWhile] at h
  | cons a t ih =>
    intro c h
    rw [List.dropWhile_cons] at h
    by_cases hp : p a
    · rw [if_pos hp] at h
      exact ih c h
    · rw [if_neg hp] at h
      simp only [List.head?_cons, Option.some.injEq] at h
      subst h
      simpa using hp

lemma getLast?_dropWhile_of_ne (p : α → Bool) :
    ∀ l : List α, l.dropWhile p ≠ [] → (l.dropWhile p).getLast? = l.getLast? := by
  intro l
  induction l with
  | nil => simp [List.dropWhile]
  | cons a t ih =>
    intro h
    rw [List.dropWhile_cons] at h ⊢
    by_cases hp : p a
    · rw [if_pos hp] at h ⊢
      have ht : t ≠ [] := by
        intro he
        subst he
        simp [List.dropWhile] at h
      obtain ⟨b, t', rfl⟩ := List.exists_cons_of_ne_nil ht
      rw [ih h, List.getLast?_cons_cons]
    · rw [if_neg hp]

lemma rustTrim_head (s : String) (c : Char)
    (h : (rustTrim s).data.head? = some c) : rustIsWhitespace c = false := by
  unfold rustTrim at h
  rw [show (⟨((s.data.dropWhile rustIsWhitespace).reverse.dropWhile
      rustIsWhitespace).reverse⟩ : String).data =
    ((s.data.dropWhile rustIsWhitespace).reverse.dropWhile
      rustIsWhitespace).reverse from rfl] at h
  rw [List.head?_reverse] at h
  have hM : (s.data.dropWhile rustIsWhitespace).reverse.dropWhile
      rustIsWhitespace ≠ [] := by
    intro he
    rw [he] at h
    simp at h
  rw [getLast?_dropWhile_of_ne _ _ hM, List.getLast?_reverse] at h
  exact dropWhile_head_not _ _ _ h

lemma rustTrim_getLast (s : String) (c : Char)
    (h : (rustTrim s).data.getLast? = some c) : rustIsWhitespace c = false := by
  unfold rustTrim at h
  rw [show (⟨((s.data.dropWhile rustIsWhitespace).reverse.dropWhile
      rustIsWhitespace).reverse⟩ : String).data =
    ((s.data.dropWhile rustIsWhitespace).reverse.dropWhile
      rustIsWhitespace).reverse from rfl] at h
  rw [List.getLast?_reverse] at h
  exact dropWhile_head_not _ _ _ h

-- ─── Claim theorems ─────────────────────────────────────────────────────────

/-- C2 counterexample: the tag `"é"` contains a character outside the
claimed class `[A-Za-z0-9._-]`, yet `validate_version_tag` accepts it —
Rust's `char::is_alphanumeric` is Unicode-wide, not ASCII. -/
theorem C2_counterexample :
    validate_spec "é" = false ∧ validate_version_tag "é" = Except.ok () :=
  ⟨by decide, by rfl⟩

/-- C2 (amended): validation succeeds exactly when every character is
Unicode-alphanumeric or one of `.`, `-`, `_`; restricted to ASCII tags this
is exactly the claimed class `[A-Za-z0-9._-]`; and an invalid tag is
rejected by `clone_or_update` before any external command runs (empty
command trace). -/
theorem C2_validate_version_tag :
    (∀ tag : String,
      validate_version_tag tag = Except.ok () ↔
        tag.data.all
          (fun c => rustIsAlphanumeric c || c == '.' || c == '-' || c == '_') = true) ∧
    (∀ tag : String, (∀ c ∈ tag.data, c.toNat < 128) →
      (validate_version_tag tag = Except.ok () ↔ validate_spec tag = true)) ∧
    (∀ (w : World) (srcDir buildDir version repoUrl e : String),
      validate_version_tag version = Except.error e →
      clone_or_update w srcDir buildDir version repoUrl = (Except.error e, [])) := by
  refine ⟨fun tag => ?_, fun tag h => ?_, fun w srcDir buildDir version repoUrl e hv => ?_⟩
  · unfold validate_version_tag
    split
    · rename_i h; simp [h]
    · rename_i h; simp [h]
  · unfold validate_version_tag validate_spec
    rw [all_congr_mem tag.data (fun c hc => codePred_eq_specTagAllowed c (h c hc))]
    split
    · rename_i h2; simp [h2]
    · rename_i h2; simp [h2]
  · unfold clone_or_update
    split <;> rw [hv]

/-- C3: build-strategy selection is a pure function of the parsed major
version: `use_cmake` is by definition the test `25 ≤ major`, `parse_version`
is invariant under an extra leading `v`, and on the spec's examples
`"v25.0"` parses to `(25, 0)` (CMake), `"v24.1"` to `(24, 1)` (Autotools)
and `"garbage"` to the fallback `(0, 0)` (Autotools). -/
theorem C3_version_strategy :
    (∀ tag : String, use_cmake tag = decide (25 ≤ (parse_version tag).1)) ∧
    (∀ tag : String, parse_version ("v" ++ tag) = parse_version tag) ∧
    parse_version "v25.0" = (25, 0) ∧ use_cmake "v25.0" = true ∧
    parse_version "v24.1" = (24, 1) ∧ use_cmake "v24.1" = false ∧
    parse_version "garbage" = (0, 0) ∧ use_cmake "garbage" = false := by
  refine ⟨fun tag => rfl, fun tag => ?_, by decide, by decide, by decide,
    by decide, by decide, by decide⟩
  have h : ("v" ++ tag).data = 'v' :: tag.data := by
    rw [data_append]
    rfl
  unfold parse_version
  rw [h]
  simp [List.dropWhile_cons]

/-- C4: POSIX shell word-unquoting is a left inverse of `shell_quote` on
every string, including strings containing single quotes. -/
theorem C4_shell_quote_roundtrip :
    ∀ s : String, shell_unquote (shell_quote s) = some s := by
  intro s
  unfold shell_unquote shell_quote
  show (shellUnquoteAux false (SQ :: (escapeQuotes s.data ++ [SQ]))).map _ = some s
  rw [auxFalseSQ, shellUnquoteAux_escape]
  rfl

/-- C6: `ask_confirm` forwards the request unchanged, returns exactly the
boolean delivered through the reply slot, and resolves a dropped slot
(`unwrap_or(false)`) to a definite no. -/
theorem C6_ask_confirm :
    ∀ title message : String,
      (∀ b : Bool, ask_confirm title message (some b) = (⟨title, message⟩, b)) ∧
      ask_confirm title message none = (⟨title, message⟩, false) :=
  fun _ _ => ⟨fun _ => rfl, rfl⟩

/-- C10: `probe` never produces the empty string — it is `none` on an empty
command list, on a spawn failure, on a non-zero exit, on invalid UTF-8, and
on whitespace-only stdout; whenever it produces `some s`, `s` is nonempty
with no leading or trailing (Unicode) whitespace. -/
theorem C10_probe_trimmed_nonempty :
    ∀ (cmd : List String) (o : ProbeOutcome),
      probe [] o = none ∧
      (o.spawn = none → probe cmd o = none) ∧
      (∀ st, o.spawn = some st → statusSuccess st = false → probe cmd o = none) ∧
      (o.stdoutUtf8 = none → probe cmd o = none) ∧
      (∀ s0, o.stdoutUtf8 = some s0 → rustTrim s0 = "" → probe cmd o = none) ∧
      (∀ s, probe cmd o = some s →
        s ≠ "" ∧
        (∀ c, s.data.head? = some c → rustIsWhitespace c = false) ∧
        (∀ c, s.data.getLast? = some c → rustIsWhitespace c = false)) := by
  intro cmd o
  refine ⟨rfl, ?_, ?_, ?_, ?_, ?_⟩
  · intro h
    cases cmd with
    | nil => rfl
    | cons a rest => simp [probe, h]
  · intro st hst hss
    cases cmd with
    | nil => rfl
    | cons a rest => simp [probe, hst, hss]
  · intro h
    cases cmd with
    | nil => rfl
    | cons a rest =>
      cases hst : o.spawn with
      | none => simp [probe, hst]
      | some st =>
        by_cases hss : statusSuccess st <;> simp [probe, hst, hss, h]
  · intro s0 h ht
    cases cmd with
    | nil => rfl
    | cons a rest =>
      cases hst : o.spawn with
      | none => simp [probe, hst]
      | some st =>
        by_cases hss : statusSuccess st <;>
          simp [probe, hst, hss, h, ht, String.isEmpty_iff]
  · intro s h
    cases cmd with
    | nil => simp [probe] at h
    | cons a rest =>
      cases hst : o.spawn with
      | none => simp [probe, hst] at h
      | some st =>
        by_cases hss : statusSuccess st
        · cases hsd : o.stdoutUtf8 with
          | none => simp [probe, hst, hss, hsd] at h
          | some s0 =>
            simp only [probe, hst, hss, if_true, hsd] at h
            by_cases hte : (rustTrim s0).isEmpty
            · simp [hte] at h
            · simp only [hte, Bool.false_eq_true, if_false, Option.some.injEq] at h
              subst h
              refine ⟨?_, fun c hc => rustTrim_head s0 c hc,
                fun c hc => rustTrim_getLast s0 c hc⟩
              intro he
              rw [he] at hte
              exact hte rfl
        · simp [probe, hst, hss] at h

/-- C10 witness: a concrete probe of a tool that exits 0 and prints a
version line surrounded by whitespace yields the trimmed, nonempty line. -/
theorem C10_probe_trimmed_nonempty_witness :
    probe ["cargo", "--version"]
        ⟨some (ExitStatus.code 0), some "  cargo 1.75.0\n"⟩ = some "cargo 1.75.0" ∧
    "cargo 1.75.0" ≠ "" ∧
    (∀ c, "cargo 1.75.0".data.head? = some c → rustIsWhitespace c = false) ∧
    (∀ c, "cargo 1.75.0".data.getLast? = some c → rustIsWhitespace c = false) := by
  have hp : probe ["cargo", "--version"]
      ⟨some (ExitStatus.code 0), some "  cargo 1.75.0\n"⟩ = some "cargo 1.75.0" := by
    decide
  exact ⟨hp, (C10_probe_trimmed_nonempty ["cargo", "--version"]
    ⟨some (ExitStatus.code 0), some "  cargo 1.75.0\n"⟩).2.2.2.2.2 "cargo 1.75.0" hp⟩

/-- C1: `run_command` succeeds exactly when the child exits with status
code 0; a non-zero exit yields an error whose message contains the exit
code in decimal and the command string; signal termination yields one
containing `signal` and the command string; and inside a pipeline
(`compile_bitcoin`, legacy strategy) such an error aborts the remaining
stages: after `./autogen.sh` fails, neither `./configure` nor `make` runs
and the stage's error is the pipeline's result. -/
theorem C1_run_command_exit_contract :
    (∀ (cmd : String) (cwd : Option String) (env : List (String × String))
        (out : SpawnOutcome),
      (run_command cmd cwd env out = Except.ok () ↔
        out = SpawnOutcome.ran (ExitStatus.code 0)) ∧
      (∀ c : Int, out = SpawnOutcome.ran (ExitStatus.code c) → c ≠ 0 →
        ∃ e, run_command cmd cwd env out = Except.error e ∧
          strContains (toString c) e ∧ strContains cmd e) ∧
      (out = SpawnOutcome.ran ExitStatus.signal →
        ∃ e, run_command cmd cwd env out = Except.error e ∧
          strContains "signal" e ∧ strContains cmd e)) ∧
    (∀ (w : World) (version buildDir : String) (cores : Nat) (c : Int),
      c ≠ 0 →
      use_cmake version = false →
      w.createDir buildDir = true →
      w.pathExists (buildDir ++ "/bitcoin-" ++ versionClean version) = true →
      validate_version_tag version = Except.ok () →
      w.run ("git fetch --depth 1 origin tag " ++ shell_quote version) =
        SpawnOutcome.ran (ExitStatus.code 0) →
      w.run ("git checkout " ++ shell_quote version) =
        SpawnOutcome.ran (ExitStatus.code 0) →
      w.run "./autogen.sh" = SpawnOutcome.ran (ExitStatus.code c) →
      compile_bitcoin w version buildDir cores =
        (Except.error ("autogen.sh failed: " ++
          ("Command failed (exit " ++ toString c ++ "): " ++ "./autogen.sh")),
         ["git fetch --depth 1 origin tag " ++ shell_quote version,
          "git checkout " ++ shell_quote version, "./autogen.sh"])) := by
  constructor
  · intro cmd cwd env out
    refine ⟨?_, ?_, ?_⟩
    · cases out with
      | spawnFail => simp [run_command]
      | waitFail => simp [run_command]
      | ran st =>
        cases st with
        | code c =>
          by_cases hc : c = 0
          · subst hc
            simp [run_command, statusSuccess]
          · simp [run_command, statusSuccess, hc]
        | signal => simp [run_command, statusSuccess]
    · intro c hout hc
      subst hout
      have hbeq : (c == (0 : Int)) = false := by simp [hc]
      refine ⟨"Command failed (exit " ++ toString c ++ "): " ++ cmd, ?_, ?_, ?_⟩
      · simp [run_command, statusSuccess, exitCodeStr, hbeq]
      · exact ⟨"Command failed (exit ".data, ("): " ++ cmd).data,
          by simp [data_append, List.append_assoc]⟩
      · exact ⟨("Command failed (exit " ++ toString c ++ "): ").data, [],
          by simp [data_append, List.append_assoc]⟩
    · intro hout
      subst hout
      refine ⟨"Command failed (exit " ++ "signal" ++ "): " ++ cmd, ?_, ?_, ?_⟩
      · simp [run_command, statusSuccess, exitCodeStr]
      · exact ⟨"Command failed (exit ".data, ("): " ++ cmd).data,
          by simp [data_append, List.append_assoc]⟩
      · exact ⟨("Command failed (exit " ++ "signal" ++ "): ").data, [],
          by simp [data_append, List.append_assoc]⟩
  · intro w version buildDir cores c hc hcm hcd hsrc hval hf hco hag
    have hbeq : (c == (0 : Int)) = false := by simp [hc]
    simp only [compile_bitcoin, clone_or_update, build_bitcoin_autotools,
      run_command, withCtx, statusSuccess, exitCodeStr, hcd, hsrc, hval, hf,
      hco, hag, hcm, hbeq, if_true, if_false, Bool.false_eq_true,
      List.append_eq, List.cons_append, List.nil_append]
    rfl

/-- C1 witness: run of a concrete command whose child exits with code 17
yields an error message containing both `17` and the command string. -/
theorem C1_run_command_exit_contract_witness :
    ∃ e, run_command "make -j4" none [] (SpawnOutcome.ran (ExitStatus.code 17)) =
        Except.error e ∧
      strContains (toString (17 : Int)) e ∧ strContains "make -j4" e :=
  ((C1_run_command_exit_contract.1 "make -j4" none []
    (SpawnOutcome.ran (ExitStatus.code 17))).2.1 17 rfl (by decide))

lemma findSplitPos_replicate_nl :
    ∀ n r i : Nat, findSplitPos (List.replicate n '\n') r i =
      if r + 1 ≤ n then some (i + r) else none := by
  intro n
  induction n with
  | zero => intro r i; simp [List.replicate, findSplitPos]
  | succ k ih =>
    intro r i
    rw [List.replicate_succ, findSplitPos, if_pos rfl]
    by_cases hr : r = 0
    · subst hr
      simp
    · rw [if_neg hr, ih]
      by_cases h2 : r ≤ k
      · rw [if_pos (by omega), if_pos (by omega)]
        congr 1
        omega
      · rw [if_neg (by omega), if_neg (by omega)]

/-- C5 (claim vs code): appending a single 4001-newline message to an empty
log trips the trim path; the code then cuts the buffer just past the 2002nd
newline, retaining 1999 lines, while recording `log_line_count =
TRIM_TO_LINES = 2000` — the tracked count and the retained-line count
disagree, so "exactly half the maximum is retained" and "the tracked count
equals the number of lines actually retained" both fail here. -/
theorem C5_append_log_off_by_one :
    (append_log ⟨[], 0⟩ (List.replicate 4001 '\n')).log_line_count = 2000 ∧
    TRIM_TO_LINES = 2000 ∧
    (append_log ⟨[], 0⟩ (List.replicate 4001 '\n')).log_buffer =
      List.replicate 1999 '\n' ∧
    ((append_log ⟨[], 0⟩ (List.replicate 4001 '\n')).log_buffer.countP
      (fun ch => ch == '\n')) = 1999 := by
  have hb : append_log ⟨[], 0⟩ (List.replicate 4001 '\n') =
      ⟨List.replicate 1999 '\n', 2000⟩ := by
    rw [append_log, List.countP_replicate]
    dsimp only
    rw [show MAX_LOG_LINES = 4000 from rfl, show TRIM_TO_LINES = 2000 from rfl]
    rw [show (if ('\n' == '\n') = true then 4001 else 0) = 4001 from rfl]
    rw [List.nil_append, Nat.zero_add]
    rw [if_pos (show 4001 > 4000 by norm_num)]
    rw [show (4001 - 2000 : Nat) = 2001 from by norm_num]
    rw [findSplitPos_replicate_nl, if_pos (show 2001 + 1 ≤ 4001 by norm_num)]
    show (⟨List.drop ((0 + 2001) + 1) (List.replicate 4001 '\n'), 2000⟩ : LogState) = _
    rw [List.drop_replicate]
  rw [hb]
  refine ⟨rfl, rfl, rfl, ?_⟩
  rw [List.countP_replicate]
  norm_num

/-- C2 witness: the ASCII equivalence at the tag `"v25.0"`, and concrete
rejection of the invalid tag `"bad tag"` by `clone_or_update` with an empty
command trace. -/
theorem C2_validate_version_tag_witness :
    (validate_version_tag "v25.0" = Except.ok () ↔ validate_spec "v25.0" = true) ∧
    clone_or_update
        ⟨fun _ => SpawnOutcome.ran (ExitStatus.code 0), fun _ => false,
         fun _ => true, fun _ _ => true, ⟨none, none⟩, ⟨none, none⟩, []⟩
        "src" "build" "bad tag" BITCOIN_REPO =
      (Except.error ("Version tag contains unexpected characters: " ++
        debugQuote "bad tag"), []) :=
  ⟨C2_validate_version_tag.2.1 "v25.0" (by decide),
   C2_validate_version_tag.2.2 _ "src" "build" "bad tag" BITCOIN_REPO _ (by rfl)⟩

lemma install_missing_cmds (w : DepsWorld) :
    ∀ l : List String, (install_missing w l).1 = l.map (brewInstallCmd w.brew) := by
  intro l
  induction l with
  | nil => rfl
  | cons p rest ih =>
    cases hrc : run_command (brewInstallCmd w.brew p) none w.env
        (w.runResult (brewInstallCmd w.brew p)) with
    | ok u => simp [install_missing, hrc, ih]
    | error e => simp [install_missing, hrc, ih]

lemma install_missing_dialogs (w : DepsWorld) :
    ∀ (l : List String) (p e), p ∈ l →
      run_command (brewInstallCmd w.brew p) none w.env
        (w.runResult (brewInstallCmd w.brew p)) = Except.error e →
      ("Installation Failed", "Failed to install " ++ p ++ ":\n" ++ e, true) ∈
        (install_missing w l).2 := by
  intro l
  induction l with
  | nil =>
    intro p e hp _
    simp at hp
  | cons q rest ih =>
    intro p e hp he
    rcases List.mem_cons.mp hp with rfl | hp2
    · simp [install_missing, he]
    · cases hrc : run_command (brewInstallCmd w.brew q) none w.env
          (w.runResult (brewInstallCmd w.brew q)) with
      | ok u =>
        simp only [install_missing, hrc]
        exact ih p e hp2 he
      | error e2 =>
        simp only [install_missing, hrc]
        exact List.mem_cons_of_mem _ (ih p e hp2 he)

/-- C7: when every catalogue package probes as installed, the dependency
check sends no `ConfirmRequest`; and it returns `Ok(true)` as soon as both
toolchain probes (`rustc --version` and `cargo --version`) succeed. -/
theorem C7_ready_without_confirm :
    ∀ w : DepsWorld, (∀ p ∈ BREW_PACKAGES, w.pkgInstalled p = true) →
      (check_dependencies_task w).confirms = [] ∧
      ((probe ["rustc", "--version"] w.rustcProbe1).isSome = true →
       (probe ["cargo", "--version"] w.cargoProbe1).isSome = true →
       (check_dependencies_task w).result = Except.ok true) := by
  intro w h
  have hm : BREW_PACKAGES.filter (fun p => !w.pkgInstalled p) = [] := by
    rw [List.filter_eq_nil_iff]
    intro p hp
    simp [h p hp]
  constructor
  · simp [check_dependencies_task, hm]
  · intro h1 h2
    simp [check_dependencies_task, hm, check_rust_installation, h1, h2]

/-- C7 witness: a world with every package installed and both probes
succeeding: no confirmation is sent and the task reports ready. -/
theorem C7_ready_without_confirm_witness :
    (check_dependencies_task
      ⟨"/opt/homebrew/bin/brew", [], fun _ => true,
       fun _ => SpawnOutcome.ran (ExitStatus.code 0),
       ⟨some (ExitStatus.code 0), some "rustc 1.75.0"⟩,
       ⟨some (ExitStatus.code 0), some "cargo 1.75.0"⟩, true,
       ⟨none, none⟩, ⟨none, none⟩, none⟩).confirms = [] ∧
    (check_dependencies_task
      ⟨"/opt/homebrew/bin/brew", [], fun _ => true,
       fun _ => SpawnOutcome.ran (ExitStatus.code 0),
       ⟨some (ExitStatus.code 0), some "rustc 1.75.0"⟩,
       ⟨some (ExitStatus.code 0), some "cargo 1.75.0"⟩, true,
       ⟨none, none⟩, ⟨none, none⟩, none⟩).result = Except.ok true := by
  have h := C7_ready_without_confirm
    ⟨"/opt/homebrew/bin/brew", [], fun _ => true,
     fun _ => SpawnOutcome.ran (ExitStatus.code 0),
     ⟨some (ExitStatus.code 0), some "rustc 1.75.0"⟩,
     ⟨some (ExitStatus.code 0), some "cargo 1.75.0"⟩, true,
     ⟨none, none⟩, ⟨none, none⟩, none⟩ (fun p _ => rfl)
  exact ⟨h.1, h.2 (by decide) (by decide)⟩

/-- C8: on an accepted confirmation the task installs every missing package
serially, in catalogue order, whatever each install's outcome is — so a
failed install never aborts the remaining ones — and each failed install
surfaces an `Installation Failed` error dialog. -/
theorem C8_best_effort_install :
    ∀ w : DepsWorld, w.confirmReply = some true →
      (check_dependencies_task w).pkgInstalls =
        (BREW_PACKAGES.filter (fun p => !w.pkgInstalled p)).map
          (brewInstallCmd w.brew) ∧
      (∀ p e, p ∈ BREW_PACKAGES.filter (fun p => !w.pkgInstalled p) →
        run_command (brewInstallCmd w.brew p) none w.env
          (w.runResult (brewInstallCmd w.brew p)) = Except.error e →
        ("Installation Failed", "Failed to install " ++ p ++ ":\n" ++ e, true) ∈
          (check_dependencies_task w).dialogs) := by
  intro w hr
  by_cases hm : (BREW_PACKAGES.filter (fun p => !w.pkgInstalled p)).isEmpty
  · have hm' : BREW_PACKAGES.filter (fun p => !w.pkgInstalled p) = [] :=
      List.isEmpty_iff.mp hm
    constructor
    · simp [check_dependencies_task, hm', install_missing]
    · intro p e hp _
      rw [hm'] at hp
      simp at hp
  · constructor
    · simp [check_dependencies_task, hm, ask_confirm, hr, install_missing_cmds]
    · intro p e hp he
      have hd := install_missing_dialogs w _ p e hp he
      simp only [check_dependencies_task, hm, ask_confirm, hr, Option.getD_some,
        Bool.false_eq_true, if_false, if_true]
      exact List.mem_append_left _ (List.mem_append_left _ hd)

/-- C8 witness: one missing package (`cmake`) whose install fails with exit
code 1 is still the unique attempted install and yields the error dialog. -/
theorem C8_best_effort_install_witness :
    (check_dependencies_task
      ⟨"/usr/local/bin/brew", [], fun p => p != "cmake",
       fun _ => SpawnOutcome.ran (ExitStatus.code 1),
       ⟨none, none⟩, ⟨none, none⟩, true, ⟨none, none⟩, ⟨none, none⟩,
       some true⟩).pkgInstalls = [brewInstallCmd "/usr/local/bin/brew" "cmake"] ∧
    ("Installation Failed",
     "Failed to install " ++ "cmake" ++ ":\n" ++
       ("Command failed (exit " ++ toString (1 : Int) ++ "): " ++
         brewInstallCmd "/usr/local/bin/brew" "cmake"), true) ∈
      (check_dependencies_task
        ⟨"/usr/local/bin/brew", [], fun p => p != "cmake",
         fun _ => SpawnOutcome.ran (ExitStatus.code 1),
         ⟨none, none⟩, ⟨none, none⟩, true, ⟨none, none⟩, ⟨none, none⟩,
         some true⟩).dialogs := by
  have h := C8_best_effort_install
    ⟨"/usr/local/bin/brew", [], fun p => p != "cmake",
     fun _ => SpawnOutcome.ran (ExitStatus.code 1),
     ⟨none, none⟩, ⟨none, none⟩, true, ⟨none, none⟩, ⟨none, none⟩,
     some true⟩ rfl
  refine ⟨?_, h.2 "cmake" _ (by decide) (by rfl)⟩
  rw [h.1]
  rfl

lemma copyBinariesLoop_all_missing (w : World) (destDir : String) :
    ∀ bins : List String, (∀ b ∈ bins, w.pathExists b = false) →
      copyBinariesLoop w destDir bins = [] := by
  intro bins h
  induction bins with
  | nil => rfl
  | cons b rest ih =>
    simp only [copyBinariesLoop, h b (List.mem_cons_self b rest),
      Bool.false_eq_true, if_false]
    exact ih (fun x hx => h x (List.mem_cons_of_mem _ hx))

/-- C9: a missing expected artifact is fatal exactly for the single-artifact
target: `compile_electrs` errors when `target/release/electrs` is absent
after a successful build; `copy_binaries` merely skips non-existent
binaries (returning `Ok`, here with an empty copy list when none exist);
and `compile_bitcoin` still returns the output directory even when every
expected binary is absent and zero binaries were copied. -/
theorem C9_missing_artifact_fatal_only_for_electrs :
    (∀ (w : World) (version buildDir : String) (cores : Nat)
        (tr : List String),
      (probe ["cargo", "--version"] w.cargoProbe).isSome = true →
      w.createDir buildDir = true →
      clone_or_update w (buildDir ++ "/electrs-" ++ versionClean version)
          buildDir version ELECTRS_REPO = (Except.ok (), tr) →
      w.run ("cargo build --release --jobs " ++ toString cores) =
        SpawnOutcome.ran (ExitStatus.code 0) →
      w.pathExists ((buildDir ++ "/electrs-" ++ versionClean version) ++
        "/target/release/electrs") = false →
      (compile_electrs w version buildDir cores).1 =
        Except.error ("Electrs binary not found at expected location: " ++
          ((buildDir ++ "/electrs-" ++ versionClean version) ++
            "/target/release/electrs"))) ∧
    (∀ (w : World) (destDir : String) (bins : List String),
      w.createDir destDir = true →
      (∀ b ∈ bins, w.pathExists b = false) →
      copy_binaries w destDir bins = Except.ok []) ∧
    (∀ (w : World) (version buildDir : String) (cores : Nat),
      (∀ d, w.createDir d = true) →
      (∀ cmd, w.run cmd = SpawnOutcome.ran (ExitStatus.code 0)) →
      (∀ p, w.pathExists p = false) →
      validate_version_tag version = Except.ok () →
      (compile_bitcoin w version buildDir cores).1 =
        Except.ok (buildDir ++ "/binaries/bitcoin-" ++ versionClean version)) := by
  refine ⟨?_, ?_, ?_⟩
  · intro w version buildDir cores tr hp hcd hclone hrun hex
    obtain ⟨v, hv⟩ := Option.isSome_iff_exists.mp hp
    simp only [compile_electrs, hv, hcd, if_true, hclone, hrun, run_command,
      statusSuccess, hex, beq_self_eq_true, Bool.false_eq_true, if_false]
  · intro w destDir bins hcd hmiss
    simp only [copy_binaries, hcd, if_true,
      copyBinariesLoop_all_missing w destDir bins hmiss]
  · intro w version buildDir cores hcd hrun hex hval
    have hloop : ∀ bins : List String,
        copyBinariesLoop w (buildDir ++ "/binaries/bitcoin-" ++ versionClean version)
          bins = [] :=
      fun bins => copyBinariesLoop_all_missing w _ bins (fun b _ => hex b)
    by_cases hcm : use_cmake version <;>
      simp only [compile_bitcoin, clone_or_update, build_bitcoin_cmake,
        build_bitcoin_autotools, copy_binaries, run_command, withCtx,
        statusSuccess, hcd, hrun, hex, hval, hcm, hloop, beq_self_eq_true,
        Bool.false_eq_true, if_false, if_true]

/-- A concrete pipeline world: every command exits 0, no path exists,
directory creation and copies succeed, both toolchain probes answer. -/
def wAllOk : World :=
  ⟨fun _ => SpawnOutcome.ran (ExitStatus.code 0), fun _ => false,
   fun _ => true, fun _ _ => true,
   ⟨some (ExitStatus.code 0), some "cargo 1.75.0"⟩,
   ⟨some (ExitStatus.code 0), some "rustc 1.75.0"⟩, []⟩

/-- C9 witness: with every build step succeeding but no file present,
`compile_electrs` fails on its absent single artifact, `copy_binaries`
returns `Ok []`, and `compile_bitcoin` still returns its output directory. -/
theorem C9_missing_artifact_fatal_only_for_electrs_witness :
    (compile_electrs wAllOk "v0.10.5" "build" 8).1 =
      Except.error ("Electrs binary not found at expected location: " ++
        (("build" ++ "/electrs-" ++ versionClean "v0.10.5") ++
          "/target/release/electrs")) ∧
    copy_binaries wAllOk "build/binaries/bitcoin-24.0"
      ["build/bitcoin-24.0/bin/bitcoind"] = Except.ok [] ∧
    (compile_bitcoin wAllOk "v24.0" "build" 4).1 =
      Except.ok ("build" ++ "/binaries/bitcoin-" ++ versionClean "v24.0") :=
  ⟨C9_missing_artifact_fatal_only_for_electrs.1 wAllOk "v0.10.5" "build" 8
      (clone_or_update wAllOk ("build" ++ "/electrs-" ++ versionClean "v0.10.5")
        "build" "v0.10.5" ELECTRS_REPO).2
      (by decide) rfl (by rfl) rfl rfl,
   C9_missing_artifact_fatal_only_for_electrs.2.1 wAllOk
      "build/binaries/bitcoin-24.0" ["build/bitcoin-24.0/bin/bitcoind"]
      rfl (fun b _ => rfl),
   C9_missing_artifact_fatal_only_for_electrs.2.2 wAllOk "v24.0" "build" 4
      (fun d => rfl) (fun cmd => rfl) (fun p => rfl) (by rfl)⟩

end BitForge
